import Mathlib

/-!
# Verification of the torchdistill image-classification orchestration core

Shallow embedding of `image_classification.py` (training orchestrator `distill`,
evaluator `evaluate`, final reload in `main`) and of the collaborators the
orchestrator relies on.  Validation scores and metric samples are modelled as
rationals; file contents as an explicit map from paths to checkpoint records;
the epoch loop as a function producing the trace of observable events.
-/

namespace TorchDistill

/-! ## Smoothed Metric (`kdkit.misc.log.SmoothedValue`) -/

/-- Modelled from the spec: `SmoothedValue` of `kdkit.misc.log` is not under
`src/`; per spec §3/§4.1 it holds a bounded window of the recently added
values (dropping oldest entries beyond `window_size`), a running `count` and a
running `total` that reflect all samples ever added. -/
structure SmoothedValue where
  window_size : Nat
  window : List Rat
  count : Nat
  total : Rat
deriving DecidableEq, Repr

/-- Modelled from the spec: a fresh metric with an empty window and zero
running statistics. -/
def SmoothedValue.mk0 (ws : Nat) : SmoothedValue :=
  { window_size := ws, window := [], count := 0, total := 0 }

/-- Modelled from the spec: `update(value, weight)` records `weight`
occurrences of `value`: it increments the running count by `weight`, the
running sum by `value * weight`, and appends `value` once to the bounded
window, dropping the oldest entries beyond capacity. -/
def SmoothedValue.update (s : SmoothedValue) (v : Rat) (w : Nat) : SmoothedValue :=
  let win := s.window ++ [v]
  { s with
    window := win.drop (win.length - s.window_size)
    count := s.count + w
    total := s.total + v * (w : Rat) }

/-- Modelled from the spec: `global_avg` is running sum / running count. -/
def SmoothedValue.global_avg (s : SmoothedValue) : Rat :=
  s.total / (s.count : Rat)

/-- Apply a finite sequence of `update (v, w)` calls in order. -/
def SmoothedValue.runUpdates (s : SmoothedValue) (upds : List (Rat × Nat)) : SmoothedValue :=
  upds.foldl (fun a p => a.update p.1 p.2) s

theorem SmoothedValue.runUpdates_count (upds : List (Rat × Nat)) :
    ∀ s : SmoothedValue, (s.runUpdates upds).count = s.count + (upds.map Prod.snd).sum := by
  induction upds with
  | nil => intro s; simp [runUpdates]
  | cons p rest ih =>
    intro s
    simp only [runUpdates, List.foldl_cons] at *
    rw [ih]
    simp [SmoothedValue.update]
    omega

theorem SmoothedValue.runUpdates_total (upds : List (Rat × Nat)) :
    ∀ s : SmoothedValue,
      (s.runUpdates upds).total = s.total + (upds.map (fun p => p.1 * (p.2 : Rat))).sum := by
  induction upds with
  | nil => intro s; simp [runUpdates]
  | cons p rest ih =>
    intro s
    simp only [runUpdates, List.foldl_cons] at *
    rw [ih]
    simp [SmoothedValue.update]
    ring

theorem SmoothedValue.runUpdates_window_size (upds : List (Rat × Nat)) :
    ∀ s : SmoothedValue, (s.runUpdates upds).window_size = s.window_size := by
  induction upds with
  | nil => intro s; simp [runUpdates]
  | cons p rest ih =>
    intro s
    simp only [runUpdates, List.foldl_cons] at *
    rw [ih]
    rfl

/-! ## Evaluator wrapping and process-wide state (`evaluate`, lines 67-99) -/

/-- How `evaluate` wraps the model before running inference. -/
inductive WrapKind where
  | distributedDataParallel
  | dataParallel
  | plainPlacement
deriving DecidableEq, Repr

/-- Python's `s.startswith(pre)`. -/
def startswith (s pre : String) : Bool :=
  pre.toList.isPrefixOf s.toList

/-- Lines 69-73 of `image_classification.py`: after moving the model to the
device, wrap in `DistributedDataParallel` when `distributed`, else in
`DataParallel` when `device.type.startswith('cuda')`, else leave the model
unwrapped.  `device_ids` is passed to the wrapper but never consulted by the
branching. -/
def evaluate_model_wrap (distributed : Bool) (device_type : String)
    (device_ids : List Nat) : WrapKind :=
  if distributed then WrapKind.distributedDataParallel
  else if startswith device_type "cuda" then WrapKind.dataParallel
  else
    let _ := device_ids
    WrapKind.plainPlacement

/-- The process-wide state that `evaluate` reads and writes: the global torch
thread count and the (shared) model's training-mode flag. -/
structure EvalState where
  num_threads : Nat
  training : Bool
deriving DecidableEq, Repr

/-- State right after lines 78-80: `num_threads = torch.get_num_threads()`;
`torch.set_num_threads(1)`; `model.eval()`.  This is the state in force for
the whole evaluation loop (lines 81-97), which touches neither field. -/
def evaluate_loop_state (s : EvalState) : EvalState :=
  { s with num_threads := 1, training := false }

/-- State when `evaluate` returns (line 99): line 98 restores the saved
thread count; nothing restores the training-mode flag set at line 80. -/
def evaluate_final_state (s : EvalState) : EvalState :=
  { evaluate_loop_state s with num_threads := s.num_threads }

/-! ## Models, parallel wrappers and checkpoints -/

/-- A wrapper-free `nn.Module` (identified by its parameter state). -/
structure Module where
  state : String
deriving DecidableEq, Repr

/-- A model handle as the orchestrator sees it: either a plain module or a
parallel wrapper (`DataParallel` / `DistributedDataParallel`) whose `.module`
attribute is the wrapped handle. -/
inductive Model where
  | plain : Module → Model
  | parallelWrapper : Model → Model
deriving DecidableEq, Repr

/-- Modelled from the spec: `myutils.pytorch.module_util.check_if_wrapped` is
not under `src/`; per spec §9 it checks whether a model is wrapped for
parallel execution. -/
def check_if_wrapped : Model → Bool
  | Model.parallelWrapper _ => true
  | Model.plain _ => false

/-- The `.module` attribute of a wrapper (line 114 only reads it under the
`check_if_wrapped` guard; the `Model.plain` branch is never reached there). -/
def Model.moduleAttr : Model → Model
  | Model.parallelWrapper inner => inner
  | m => m

/-- Line 114 / lines 157-158:
`student_model.module if module_util.check_if_wrapped(student_model) else student_model`. -/
def student_model_without_ddp (m : Model) : Model :=
  if check_if_wrapped m then m.moduleAttr else m

/-- The bundle persisted at a checkpoint path (spec §3 CheckpointRecord). -/
structure Checkpoint where
  best_score : Rat
  model_state : Module
  optimizer_state : Nat
  scheduler_state : Nat
deriving DecidableEq, Repr

/-- The file system visible to the orchestrator: what checkpoint, if any, is
stored at each path. -/
def FileSystem : Type := String → Option Checkpoint

/-- Modelled from the spec: `myutils.common.file_util.check_if_exists` is not
under `src/`; it reports whether a file exists at the path. -/
def check_if_exists (fs : FileSystem) (path : String) : Bool :=
  (fs path).isSome

/-- Modelled from the spec: `kdkit.common.main_util.load_ckpt` (optimizer /
scheduler form, line 111) is not under `src/`; per spec §4.4 `load` returns
the stored best score and restores optimizer and scheduler state from the
checkpoint, and fails with `NotFoundError` if the path is absent. -/
def load_ckpt_into_optim (fs : FileSystem) (path : String) :
    Except String (Rat × Nat × Nat) :=
  match fs path with
  | some c => Except.ok (c.best_score, c.optimizer_state, c.scheduler_state)
  | none => Except.error "NotFoundError"

/-- Modelled from the spec: `load_ckpt` with `model=...` and `strict=True`
(lines 47 and 159) is not under `src/`; per spec §7, strict loading fails
loudly (`NotFoundError`) if the expected file is absent, else restores the
stored model state. -/
def load_ckpt_model (fs : FileSystem) (path : String) (_strict : Bool) :
    Except String Module :=
  match fs path with
  | some c => Except.ok c.model_state
  | none => Except.error "NotFoundError"

/-! ## Distributed context -/

/-- Modelled from the spec: `main_util.init_distributed_mode` is not under
`src/`; per spec §3/§4.3 `is_distributed` holds iff world size > 1. -/
def is_distributed (world_size : Nat) : Bool :=
  decide (1 < world_size)

/-- Modelled from the spec: `main_util.is_main_process` is not under `src/`;
per spec §4.3 it returns true iff rank == 0 or not distributed. -/
def is_main_process (world_size rank : Nat) : Bool :=
  rank == 0 || !is_distributed world_size

/-! ## The training orchestrator (`distill`, lines 102-135) -/

/-- The observable events of one `distill` run, in program order. -/
inductive Event where
  | preProcess : Nat → Event
  | distillEpoch : Nat → Event
  | validate : Nat → Rat → Event
  | saveCkpt : Nat → Model → Rat → String → Event
  | barrier : Event
  | postProcess : Nat → Event
  | cleanModules : Event
deriving DecidableEq, Repr

/-- The arguments of `distill` that the epoch loop reads.  `valScores e` is
the top-1 validation accuracy that `evaluate` returns for the student after
epoch `e`; `num_epochs` is `distillation_box.num_epochs`. -/
structure DistillArgs where
  start_epoch : Nat
  num_epochs : Nat
  world_size : Nat
  rank : Nat
  student_model : Model
  ckpt_file_path : String
  valScores : Nat → Rat

/-- The events emitted by one iteration of the loop body (lines 117-127)
when the best score on entry is `best`: `pre_process`, one distillation pass,
validation, the guarded checkpoint write, `post_process`. -/
def epochEvents (args : DistillArgs) (best : Rat) (e : Nat) : List Event :=
  [Event.preProcess e, Event.distillEpoch e, Event.validate e (args.valScores e)]
  ++ (if best < args.valScores e
        ∧ is_main_process args.world_size args.rank = true then
        [Event.saveCkpt e (student_model_without_ddp args.student_model)
          (args.valScores e) args.ckpt_file_path]
      else [])
  ++ [Event.postProcess e]

/-- The best score after one iteration of the loop body: updated only inside
the `val > best and is_main_process()` branch (lines 121-124). -/
def stepBest (args : DistillArgs) (best : Rat) (e : Nat) : Rat :=
  if best < args.valScores e ∧ is_main_process args.world_size args.rank = true then
    args.valScores e
  else best

/-- The epoch loop over an explicit list of epochs, returning the final best
score and the emitted trace. -/
def distillLoop (args : DistillArgs) (best : Rat) : List Nat → Rat × List Event
  | [] => (best, [])
  | e :: rest =>
    let r := distillLoop args (stepBest args best e) rest
    (r.1, epochEvents args best e ++ r.2)

/-- Line 116: `for epoch in range(start_epoch, distillation_box.num_epochs)`. -/
def epochRange (args : DistillArgs) : List Nat :=
  List.range' args.start_epoch (args.num_epochs - args.start_epoch)

/-- Lines 116-135 of `distill`, starting from best score `best0`: the epoch
loop, then `dist.barrier()` when distributed, then
`distillation_box.clean_modules()`. -/
def distillRun (args : DistillArgs) (best0 : Rat) : Rat × List Event :=
  let r := distillLoop args best0 (epochRange args)
  (r.1,
    r.2 ++ (if is_distributed args.world_size then [Event.barrier] else [])
        ++ [Event.cleanModules])

/-- Lines 108-111 of `distill`: `best_val_top1_accuracy = 0.0`, then, only if
a file exists at the student checkpoint path, load it and restore the
optimizer and scheduler state.  Returns the initial best score and the
resulting optimizer / scheduler state. -/
def distill_init (fs : FileSystem) (path : String) (opt sched : Nat) :
    Except String (Rat × Nat × Nat) :=
  if check_if_exists fs path then load_ckpt_into_optim fs path
  else Except.ok (0, opt, sched)

/-- The whole of `distill` as far as checkpoint state is concerned:
initialisation (lines 108-111) followed by the loop and teardown
(lines 116-135). -/
def distill (args : DistillArgs) (fs : FileSystem) (opt sched : Nat) :
    Except String (Rat × List Event) :=
  match distill_init fs args.ckpt_file_path opt sched with
  | Except.error e => Except.error e
  | Except.ok (b0, _, _) => Except.ok (distillRun args b0)

/-- Lines 155-159 of `main`: when not in test-only mode, after `distill`
returns, reload the final student checkpoint into the unwrapped student with
`strict=True`. -/
def final_student_reload (fs : FileSystem) (path : String) (student : Model) :
    Except String Module :=
  let _ := student_model_without_ddp student
  load_ckpt_model fs path true

/-- Lines 155-159 guarded by `if not args.test_only`. -/
def main_post_distill (test_only : Bool) (fs : FileSystem) (path : String)
    (student : Model) : Option (Except String Module) :=
  if test_only then none else some (final_student_reload fs path student)

/-! ## Trace observations -/

/-- The epoch an event belongs to (`none` for the loop-external events). -/
def epochOf : Event → Option Nat
  | Event.preProcess e => some e
  | Event.distillEpoch e => some e
  | Event.validate e _ => some e
  | Event.saveCkpt e _ _ _ => some e
  | Event.postProcess e => some e
  | Event.barrier => none
  | Event.cleanModules => none

/-- The epoch of a `preProcess` event. -/
def preEpochOf : Event → Option Nat
  | Event.preProcess e => some e
  | _ => none

/-- Does the event belong to epoch `e`? -/
def epochIs (e : Nat) (ev : Event) : Bool :=
  epochOf ev == some e

/-- Is the event a checkpoint write? -/
def isSaveEvent : Event → Bool
  | Event.saveCkpt _ _ _ _ => true
  | _ => false

/-- Is the event a checkpoint write for epoch `e`? -/
def hasSaveAt (e : Nat) (tr : List Event) : Bool :=
  tr.any fun ev =>
    match ev with
    | Event.saveCkpt e2 _ _ _ => e2 == e
    | _ => false

/-- The (epoch, stored best score) pairs of the checkpoint writes of a
trace, in order. -/
def saveList (tr : List Event) : List (Nat × Rat) :=
  tr.filterMap fun ev =>
    match ev with
    | Event.saveCkpt e _ b _ => some (e, b)
    | _ => none

/-- The shape of an event, forgetting its payload. -/
inductive EventKind where
  | pre
  | dist
  | val
  | save
  | post
  | barrierK
  | clean
deriving DecidableEq, Repr

/-- Forget an event's payload. -/
def Event.kind : Event → EventKind
  | Event.preProcess _ => EventKind.pre
  | Event.distillEpoch _ => EventKind.dist
  | Event.validate _ _ => EventKind.val
  | Event.saveCkpt _ _ _ _ => EventKind.save
  | Event.barrier => EventKind.barrierK
  | Event.postProcess _ => EventKind.post
  | Event.cleanModules => EventKind.clean

/-- The best score in force when the loop over the epoch list reaches epoch
`e` (the value the write condition of epoch `e` compares against). -/
def bestBeforeIn (args : DistillArgs) (best : Rat) (e : Nat) : List Nat → Rat
  | [] => best
  | x :: rest =>
    if x = e then best else bestBeforeIn args (stepBest args best x) e rest

/-! ## Lemmas about single epoch blocks -/

theorem epochEvents_filterMap_preEpochOf (args : DistillArgs) (best : Rat) (e : Nat) :
    (epochEvents args best e).filterMap preEpochOf = [e] := by
  unfold epochEvents
  split <;> simp [preEpochOf]

theorem epochEvents_filter_epochIs_self (args : DistillArgs) (best : Rat) (e : Nat) :
    (epochEvents args best e).filter (epochIs e) = epochEvents args best e := by
  unfold epochEvents
  split <;> simp [epochIs, epochOf]

theorem epochEvents_filter_epochIs_ne (args : DistillArgs) (best : Rat) (x e : Nat)
    (h : x ≠ e) :
    (epochEvents args best x).filter (epochIs e) = [] := by
  unfold epochEvents
  split <;> simp [epochIs, epochOf, h]

theorem epochEvents_hasSaveAt_self (args : DistillArgs) (best : Rat) (e : Nat) :
    hasSaveAt e (epochEvents args best e)
      = decide (best < args.valScores e
          ∧ is_main_process args.world_size args.rank = true) := by
  unfold epochEvents hasSaveAt
  split <;> rename_i h <;> simp [h]

theorem epochEvents_hasSaveAt_ne (args : DistillArgs) (best : Rat) (x e : Nat)
    (h : x ≠ e) :
    hasSaveAt e (epochEvents args best x) = false := by
  unfold epochEvents hasSaveAt
  split <;> simp [h]

theorem epochEvents_filter_isSomeEpoch (args : DistillArgs) (best : Rat) (e : Nat) :
    (epochEvents args best e).filter (fun ev => (epochOf ev).isSome)
      = epochEvents args best e := by
  unfold epochEvents
  split <;> simp [epochOf]

theorem epochEvents_kinds (args : DistillArgs) (best : Rat) (e : Nat) :
    (epochEvents args best e).map Event.kind
      = [EventKind.pre, EventKind.dist, EventKind.val]
        ++ (if best < args.valScores e
              ∧ is_main_process args.world_size args.rank = true then
             [EventKind.save] else [])
        ++ [EventKind.post] := by
  unfold epochEvents
  split <;> rename_i h <;> simp [h, Event.kind]

/-! ## Lemmas about the epoch loop -/

theorem distillLoop_filterMap_preEpochOf (args : DistillArgs) :
    ∀ (l : List Nat) (best : Rat),
      ((distillLoop args best l).2).filterMap preEpochOf = l := by
  intro l
  induction l with
  | nil => intro best; simp [distillLoop]
  | cons x rest ih =>
    intro best
    simp only [distillLoop, List.filterMap_append]
    rw [ih, epochEvents_filterMap_preEpochOf]
    rfl

theorem distillLoop_filter_not_mem (args : DistillArgs) (e : Nat) :
    ∀ (l : List Nat) (best : Rat), e ∉ l →
      ((distillLoop args best l).2).filter (epochIs e) = [] := by
  intro l
  induction l with
  | nil => intro best _; simp [distillLoop]
  | cons x rest ih =>
    intro best h
    have hx : x ≠ e := fun hc => h (hc ▸ List.mem_cons_self x rest)
    have hr : e ∉ rest := fun hc => h (List.mem_cons_of_mem x hc)
    simp only [distillLoop, List.filter_append]
    rw [epochEvents_filter_epochIs_ne args best x e hx, ih _ hr]
    rfl

theorem distillLoop_filter_mem (args : DistillArgs) (e : Nat) :
    ∀ (l : List Nat) (best : Rat), l.Nodup → e ∈ l →
      ((distillLoop args best l).2).filter (epochIs e)
        = epochEvents args (bestBeforeIn args best e l) e := by
  intro l
  induction l with
  | nil => intro best _ h; cases h
  | cons x rest ih =>
    intro best hnd hmem
    rcases List.nodup_cons.mp hnd with ⟨hx, hrest⟩
    by_cases hxe : x = e
    · subst hxe
      simp only [distillLoop, List.filter_append]
      rw [distillLoop_filter_not_mem args x rest _ hx,
        epochEvents_filter_epochIs_self]
      simp [bestBeforeIn]
    · have hmem' : e ∈ rest := by
        rcases List.mem_cons.mp hmem with h | h
        · exact absurd h.symm hxe
        · exact h
      simp only [distillLoop, List.filter_append]
      rw [epochEvents_filter_epochIs_ne args best x e hxe, ih _ hrest hmem']
      simp [bestBeforeIn, hxe]

theorem distillLoop_hasSaveAt_not_mem (args : DistillArgs) (e : Nat) :
    ∀ (l : List Nat) (best : Rat), e ∉ l →
      hasSaveAt e (distillLoop args best l).2 = false := by
  intro l
  induction l with
  | nil => intro best _; simp [distillLoop, hasSaveAt]
  | cons x rest ih =>
    intro best h
    have hx : x ≠ e := fun hc => h (hc ▸ List.mem_cons_self x rest)
    have hr : e ∉ rest := fun hc => h (List.mem_cons_of_mem x hc)
    simp only [distillLoop, hasSaveAt, List.any_append]
    rw [show ((epochEvents args best x).any fun ev =>
          match ev with
          | Event.saveCkpt e2 _ _ _ => e2 == e
          | _ => false) = hasSaveAt e (epochEvents args best x) from rfl,
      epochEvents_hasSaveAt_ne args best x e hx]
    exact ih _ hr

theorem distillLoop_hasSaveAt_mem (args : DistillArgs) (e : Nat) :
    ∀ (l : List Nat) (best : Rat), l.Nodup → e ∈ l →
      hasSaveAt e (distillLoop args best l).2
        = decide (bestBeforeIn args best e l < args.valScores e
            ∧ is_main_process args.world_size args.rank = true) := by
  intro l
  induction l with
  | nil => intro best _ h; cases h
  | cons x rest ih =>
    intro best hnd hmem
    rcases List.nodup_cons.mp hnd with ⟨hx, hrest⟩
    by_cases hxe : x = e
    · subst hxe
      simp only [distillLoop, hasSaveAt, List.any_append]
      rw [show ((epochEvents args best x).any fun ev =>
            match ev with
            | Event.saveCkpt e2 _ _ _ => e2 == x
            | _ => false) = hasSaveAt x (epochEvents args best x) from rfl,
        epochEvents_hasSaveAt_self,
        show (((distillLoop args (stepBest args best x) rest).2).any fun ev =>
            match ev with
            | Event.saveCkpt e2 _ _ _ => e2 == x
            | _ => false) = hasSaveAt x (distillLoop args (stepBest args best x) rest).2
          from rfl,
        distillLoop_hasSaveAt_not_mem args x rest _ hx]
      simp [bestBeforeIn]
    · have hmem' : e ∈ rest := by
        rcases List.mem_cons.mp hmem with h | h
        · exact absurd h.symm hxe
        · exact h
      simp only [distillLoop, hasSaveAt, List.any_append]
      rw [show ((epochEvents args best x).any fun ev =>
            match ev with
            | Event.saveCkpt e2 _ _ _ => e2 == e
            | _ => false) = hasSaveAt e (epochEvents args best x) from rfl,
        epochEvents_hasSaveAt_ne args best x e hxe]
      have := ih (stepBest args best x) hrest hmem'
      simp only [hasSaveAt] at this
      rw [this]
      simp [bestBeforeIn, hxe]

theorem distillLoop_no_saves_of_not_main (args : DistillArgs)
    (h : is_main_process args.world_size args.rank = false) :
    ∀ (l : List Nat) (best : Rat),
      ((distillLoop args best l).2).any isSaveEvent = false := by
  intro l
  induction l with
  | nil => intro best; simp [distillLoop]
  | cons x rest ih =>
    intro best
    simp only [distillLoop, List.any_append, Bool.or_eq_false_iff]
    refine ⟨?_, ih _⟩
    unfold epochEvents
    split
    · rename_i hc
      rw [h] at hc
      simp at hc
    · simp [isSaveEvent]

theorem distillLoop_save_model (args : DistillArgs) :
    ∀ (l : List Nat) (best : Rat) (e : Nat) (m : Model) (b : Rat) (p : String),
      Event.saveCkpt e m b p ∈ (distillLoop args best l).2 →
      m = student_model_without_ddp args.student_model := by
  intro l
  induction l with
  | nil => intro best e m b p h; simp [distillLoop] at h
  | cons x rest ih =>
    intro best e m b p h
    simp only [distillLoop, List.mem_append] at h
    rcases h with h | h
    · unfold epochEvents at h
      split at h <;> simp_all
    · exact ih _ _ _ _ _ h

theorem distillLoop_filter_isSomeEpoch (args : DistillArgs) :
    ∀ (l : List Nat) (best : Rat),
      ((distillLoop args best l).2).filter (fun ev => (epochOf ev).isSome)
        = (distillLoop args best l).2 := by
  intro l
  induction l with
  | nil => intro best; simp [distillLoop]
  | cons x rest ih =>
    intro best
    simp only [distillLoop, List.filter_append]
    rw [epochEvents_filter_isSomeEpoch, ih]

/-! ## Lemmas about the run suffix (barrier and cleanup) -/

theorem distillRun_trace (args : DistillArgs) (best0 : Rat) :
    (distillRun args best0).2
      = (distillLoop args best0 (epochRange args)).2
        ++ (if is_distributed args.world_size then [Event.barrier] else [])
        ++ [Event.cleanModules] := by
  simp [distillRun]

theorem suffix_filterMap_preEpochOf (ws : Nat) :
    ((if is_distributed ws then [Event.barrier] else [])
        ++ [Event.cleanModules]).filterMap preEpochOf = [] := by
  split <;> simp [preEpochOf]

theorem suffix_filter_epochIs (ws : Nat) (e : Nat) :
    ((if is_distributed ws then [Event.barrier] else [])
        ++ [Event.cleanModules]).filter (epochIs e) = [] := by
  split <;> simp [epochIs, epochOf]

theorem suffix_hasSaveAt (ws : Nat) (e : Nat) :
    hasSaveAt e ((if is_distributed ws then [Event.barrier] else [])
        ++ [Event.cleanModules]) = false := by
  unfold hasSaveAt
  split <;> simp

theorem suffix_any_isSaveEvent (ws : Nat) :
    ((if is_distributed ws then [Event.barrier] else [])
        ++ [Event.cleanModules]).any isSaveEvent = false := by
  split <;> simp [isSaveEvent]

theorem suffix_filter_isSomeEpoch (ws : Nat) :
    ((if is_distributed ws then [Event.barrier] else [])
        ++ [Event.cleanModules]).filter (fun ev => (epochOf ev).isSome) = [] := by
  split <;> simp [epochOf]

theorem epochRange_nodup (args : DistillArgs) : (epochRange args).Nodup := by
  unfold epochRange
  exact List.nodup_range' ..

/-! ## Concrete runs used as examples and witnesses -/

/-- The validation-score sequence of spec §8: `[0.5, 0.4, 0.6, 0.6, 0.7]`. -/
def exampleScores : List Rat :=
  [mkRat 1 2, mkRat 2 5, mkRat 3 5, mkRat 3 5, mkRat 7 10]

/-- A single-process run over the example scores, starting from scratch. -/
def exampleArgs : DistillArgs :=
  { start_epoch := 0
    num_epochs := 5
    world_size := 1
    rank := 0
    student_model := Model.plain ⟨"student"⟩
    ckpt_file_path := "ckpt.pt"
    valScores := fun e => exampleScores.getD e 0 }

/-- The example run on a non-main process of a world of size 2. -/
def nonMainArgs : DistillArgs :=
  { exampleArgs with world_size := 2, rank := 1 }

/-- The example run with the student handed over wrapped in a parallel
wrapper. -/
def wrappedStudentArgs : DistillArgs :=
  { exampleArgs with
    student_model := Model.parallelWrapper (Model.plain ⟨"student"⟩) }

/-- A file system holding one checkpoint at `"ckpt.pt"`. -/
def oneCkpt : Checkpoint :=
  { best_score := mkRat 3 5, model_state := ⟨"student"⟩
    optimizer_state := 7, scheduler_state := 8 }

/-- The file system with `oneCkpt` stored at `"ckpt.pt"` and nothing else. -/
def oneCkptFS : FileSystem := fun p => if p = "ckpt.pt" then some oneCkpt else none

/-- The empty file system. -/
def emptyFS : FileSystem := fun _ => none

/-! ## Claims -/

theorem hasSaveAt_append (e : Nat) (a b : List Event) :
    hasSaveAt e (a ++ b) = (hasSaveAt e a || hasSaveAt e b) := by
  unfold hasSaveAt
  exact List.any_append

theorem distillRun_hasSaveAt (args : DistillArgs) (best0 : Rat) (e : Nat)
    (he : e ∈ epochRange args) :
    hasSaveAt e (distillRun args best0).2
      = decide (bestBeforeIn args best0 e (epochRange args) < args.valScores e
          ∧ is_main_process args.world_size args.rank = true) := by
  rw [distillRun_trace, List.append_assoc, hasSaveAt_append,
    suffix_hasSaveAt, Bool.or_false,
    distillLoop_hasSaveAt_mem args e (epochRange args) best0 (epochRange_nodup args) he]

/-- C1: in the epoch loop of `distill`, a checkpoint write occurs in an epoch
iff that epoch's validation top-1 accuracy strictly exceeds the best score in
force when the epoch runs and the process is the main process; and for the
validation scores `[0.5, 0.4, 0.6, 0.6, 0.7]` starting from best score `0.0`,
exactly 3 checkpoint writes occur, at scores `0.5`, `0.6` and `0.7` (epochs
0, 2 and 4), with no write at the repeated `0.6` or at the decrease. -/
theorem C1_checkpoint_write_iff :
    (∀ (args : DistillArgs) (best0 : Rat) (e : Nat), e ∈ epochRange args →
      (hasSaveAt e (distillRun args best0).2 = true ↔
        (bestBeforeIn args best0 e (epochRange args) < args.valScores e
          ∧ is_main_process args.world_size args.rank = true)))
    ∧ saveList (distillRun exampleArgs 0).2
        = [(0, mkRat 1 2), (2, mkRat 3 5), (4, mkRat 7 10)] := by
  constructor
  · intro args best0 e he
    rw [distillRun_hasSaveAt args best0 e he]
    exact decide_eq_true_iff
  · decide

/-- Witness for C1 at the example run: epoch 0 (score 0.5, best 0.0 on a
main process) is written. -/
theorem C1_witness :
    hasSaveAt 0 (distillRun exampleArgs 0).2 = true ↔
      (bestBeforeIn exampleArgs 0 0 (epochRange exampleArgs)
          < exampleArgs.valScores 0
        ∧ is_main_process exampleArgs.world_size exampleArgs.rank = true) :=
  C1_checkpoint_write_iff.1 exampleArgs 0 0 (by decide)

/-- C2: at the start of a `distill` run, if no file exists at the student
checkpoint path, the best score is `0.0`, the optimizer and scheduler keep
their state, and no load error is raised; otherwise the best score is the
checkpoint's best-score field and the checkpoint's optimizer and scheduler
state are restored. -/
theorem C2_resume_initialisation (fs : FileSystem) (path : String)
    (opt sched : Nat) :
    (fs path = none →
      distill_init fs path opt sched = Except.ok (0, opt, sched))
    ∧ (∀ c : Checkpoint, fs path = some c →
        distill_init fs path opt sched
          = Except.ok (c.best_score, c.optimizer_state, c.scheduler_state)) := by
  constructor
  · intro h
    simp [distill_init, check_if_exists, h]
  · intro c h
    simp [distill_init, check_if_exists, h, load_ckpt_into_optim]

/-- Witness for C2: the empty file system gives best score 0 with no error,
and a stored checkpoint is restored. -/
theorem C2_witness :
    distill_init emptyFS "ckpt.pt" 3 4 = Except.ok (0, 3, 4)
    ∧ distill_init oneCkptFS "ckpt.pt" 3 4 = Except.ok (mkRat 3 5, 7, 8) :=
  ⟨(C2_resume_initialisation emptyFS "ckpt.pt" 3 4).1 rfl,
   (C2_resume_initialisation oneCkptFS "ckpt.pt" 3 4).2 oneCkpt rfl⟩

/-- C3: a process for which `is_main_process()` is false (here: rank ≠ 0 in
a world of size > 1) never performs a checkpoint write during `distill`,
whatever validation scores it observes. -/
theorem C3_non_main_never_writes (args : DistillArgs) (best0 : Rat)
    (hws : 1 < args.world_size) (hrank : args.rank ≠ 0) :
    ((distillRun args best0).2).any isSaveEvent = false := by
  have hmain : is_main_process args.world_size args.rank = false := by
    unfold is_main_process is_distributed
    simp [hrank, hws]
  rw [distillRun_trace, List.append_assoc, List.any_append]
  rw [distillLoop_no_saves_of_not_main args hmain, suffix_any_isSaveEvent]
  rfl

/-- Witness for C3: rank 1 of a world of size 2 writes nothing on the
example scores. -/
theorem C3_witness : ((distillRun nonMainArgs 0).2).any isSaveEvent = false :=
  C3_non_main_never_writes nonMainArgs 0 (by decide) (by decide)

/-- C4: `distill` iterates exactly the epochs `[start_epoch, num_epochs)` in
strictly increasing order with no skip or retry (the `preProcess` events list
exactly that range, in order); within each epoch the events are, in order,
`pre_process`, one distillation pass, validation, the conditional checkpoint
write, `post_process` (and nothing outside the range); after the loop the
trace is closed by a barrier exactly when distributed, then `clean_modules`. -/
theorem C4_loop_structure (args : DistillArgs) (best0 : Rat) :
    ((distillRun args best0).2).filterMap preEpochOf
        = List.range' args.start_epoch (args.num_epochs - args.start_epoch)
    ∧ (∀ e : Nat, e ∈ epochRange args →
        (((distillRun args best0).2).filter (epochIs e)).map Event.kind
          = [EventKind.pre, EventKind.dist, EventKind.val]
            ++ (if hasSaveAt e (distillRun args best0).2 = true then
                  [EventKind.save] else [])
            ++ [EventKind.post])
    ∧ (∀ e : Nat, e ∉ epochRange args →
        ((distillRun args best0).2).filter (epochIs e) = [])
    ∧ (distillRun args best0).2
        = ((distillRun args best0).2).filter (fun ev => (epochOf ev).isSome)
          ++ (if is_distributed args.world_size then [Event.barrier] else [])
          ++ [Event.cleanModules] := by
  refine ⟨?_, ?_, ?_, ?_⟩
  · rw [distillRun_trace, List.append_assoc, List.filterMap_append,
      distillLoop_filterMap_preEpochOf, suffix_filterMap_preEpochOf,
      List.append_nil]
    rfl
  · intro e he
    rw [distillRun_hasSaveAt args best0 e he]
    rw [distillRun_trace, List.append_assoc, List.filter_append,
      distillLoop_filter_mem args e (epochRange args) best0
        (epochRange_nodup args) he,
      suffix_filter_epochIs, List.append_nil, epochEvents_kinds]
    simp only [decide_eq_true_eq]
  · intro e he
    rw [distillRun_trace, List.append_assoc, List.filter_append,
      distillLoop_filter_not_mem args e (epochRange args) best0 he,
      suffix_filter_epochIs]
    rfl
  · rw [distillRun_trace, List.append_assoc, List.filter_append,
      distillLoop_filter_isSomeEpoch, suffix_filter_isSomeEpoch,
      List.append_nil, List.append_assoc]

/-- Witness for C4 at the example run: the processed epochs are exactly
`[0, 1, 2, 3, 4]`. -/
theorem C4_witness :
    ((distillRun exampleArgs 0).2).filterMap preEpochOf
      = List.range' exampleArgs.start_epoch
          (exampleArgs.num_epochs - exampleArgs.start_epoch) :=
  (C4_loop_structure exampleArgs 0).1

/-- C8: every checkpoint write of `distill` saves
`student_model_without_ddp`, the student with any parallel wrapper removed:
if the student arrived wrapped, the underlying module is saved, not the
wrapper, and for a once-wrapped module the saved state is wrapper-free. -/
theorem C8_saved_state_is_unwrapped (args : DistillArgs) (best0 : Rat)
    (e : Nat) (m : Model) (b : Rat) (p : String)
    (h : Event.saveCkpt e m b p ∈ (distillRun args best0).2) :
    m = student_model_without_ddp args.student_model
    ∧ (∀ inner : Model,
        args.student_model = Model.parallelWrapper inner → m = inner)
    ∧ (∀ mod : Module,
        args.student_model = Model.parallelWrapper (Model.plain mod) →
          check_if_wrapped m = false) := by
  rw [distillRun_trace, List.append_assoc, List.mem_append] at h
  have hm : m = student_model_without_ddp args.student_model := by
    rcases h with h | h
    · exact distillLoop_save_model args (epochRange args) best0 e m b p h
    · rw [List.mem_append] at h
      rcases h with h | h
      · split at h <;> simp at h
      · simp at h
  refine ⟨hm, ?_, ?_⟩
  · intro inner hi
    rw [hm, hi]
    simp [student_model_without_ddp, check_if_wrapped, Model.moduleAttr]
  · intro mod hi
    rw [hm, hi]
    simp [student_model_without_ddp, check_if_wrapped, Model.moduleAttr]

/-- Witness for C8: the write at epoch 0 of the wrapped-student example run
stores the unwrapped student module. -/
theorem C8_witness :
    Model.plain ⟨"student"⟩
      = student_model_without_ddp wrappedStudentArgs.student_model :=
  (C8_saved_state_is_unwrapped wrappedStudentArgs 0 0 (Model.plain ⟨"student"⟩)
    (mkRat 1 2) "ckpt.pt" (by decide)).1

/-- C5: for every finite sequence of `update (v, w)` calls on a Smoothed
Metric, the running count and sum equal the count and weighted sum of all
calls ever made, `global_avg` equals `(sum of v*w) / (sum of w)`, and the
result is independent of the window capacity: truncation affects only the
windowed view, never `global_avg`. -/
theorem C5_global_avg_exact (ws : Nat) (upds : List (Rat × Nat)) :
    ((SmoothedValue.mk0 ws).runUpdates upds).count = (upds.map Prod.snd).sum
    ∧ ((SmoothedValue.mk0 ws).runUpdates upds).total
        = (upds.map (fun p => p.1 * (p.2 : Rat))).sum
    ∧ ((SmoothedValue.mk0 ws).runUpdates upds).global_avg
        = (upds.map (fun p => p.1 * (p.2 : Rat))).sum
          / (((upds.map Prod.snd).sum : Nat) : Rat)
    ∧ (∀ ws' : Nat, ((SmoothedValue.mk0 ws).runUpdates upds).global_avg
        = ((SmoothedValue.mk0 ws').runUpdates upds).global_avg) := by
  have hc := SmoothedValue.runUpdates_count upds (SmoothedValue.mk0 ws)
  have ht := SmoothedValue.runUpdates_total upds (SmoothedValue.mk0 ws)
  rw [show (SmoothedValue.mk0 ws).count = 0 from rfl, Nat.zero_add] at hc
  rw [show (SmoothedValue.mk0 ws).total = 0 from rfl, zero_add] at ht
  refine ⟨hc, ht, ?_, ?_⟩
  · unfold SmoothedValue.global_avg
    rw [hc, ht]
  · intro ws'
    have hc' := SmoothedValue.runUpdates_count upds (SmoothedValue.mk0 ws')
    have ht' := SmoothedValue.runUpdates_total upds (SmoothedValue.mk0 ws')
    rw [show (SmoothedValue.mk0 ws').count = 0 from rfl, Nat.zero_add] at hc'
    rw [show (SmoothedValue.mk0 ws').total = 0 from rfl, zero_add] at ht'
    unfold SmoothedValue.global_avg
    rw [hc, ht, hc', ht']

/-- C6 counterexample: with `is_distributed` false and a single (CUDA)
device, `evaluate` still applies a parallel wrapper (`DataParallel`), not
plain placement — the branch tests the device type, not the device count. -/
theorem C6_counterexample :
    ([0] : List Nat).length = 1
    ∧ evaluate_model_wrap false "cuda" [0] = WrapKind.dataParallel
    ∧ evaluate_model_wrap false "cuda" [0] ≠ WrapKind.plainPlacement := by
  refine ⟨rfl, by decide, by decide⟩

/-- C6 amended: `evaluate` leaves the model unwrapped iff `is_distributed`
is false and the device type is not a CUDA accelerator; it applies
`DistributedDataParallel` iff distributed; and the choice of wrapper is
independent of the device-id list (a single CUDA device still gets
`DataParallel`). -/
theorem C6_wrap_dictated_by_device_type (distributed : Bool)
    (device_type : String) (device_ids : List Nat) :
    (evaluate_model_wrap distributed device_type device_ids
        = WrapKind.plainPlacement
      ↔ distributed = false ∧ startswith device_type "cuda" = false)
    ∧ (evaluate_model_wrap distributed device_type device_ids
        = WrapKind.distributedDataParallel ↔ distributed = true)
    ∧ (∀ ids' : List Nat,
        evaluate_model_wrap distributed device_type device_ids
          = evaluate_model_wrap distributed device_type ids') := by
  unfold evaluate_model_wrap
  rcases distributed
  · rcases h : startswith device_type "cuda" <;> simp [h]
  · simp

/-- C7 counterexample: a model in training mode before `evaluate` is not
restored to training mode — after the call it is in eval mode. -/
theorem C7_counterexample :
    (⟨4, true⟩ : EvalState).training = true
    ∧ (evaluate_final_state ⟨4, true⟩).training = false :=
  ⟨rfl, rfl⟩

/-- C7 amended: `evaluate` puts the model into inference (non-training) mode
and leaves it there: whatever the mode before the call, after `evaluate`
returns the model is in eval mode (only the thread count is restored). -/
theorem C7_eval_mode_not_restored (s : EvalState) :
    (evaluate_loop_state s).training = false
    ∧ (evaluate_final_state s).training = false :=
  ⟨rfl, rfl⟩

/-- C9: when not in test-only mode, `main` reloads the final student
checkpoint with `strict=True` after `distill`, and this load fails loudly
(`NotFoundError`) when the expected file is absent, rather than silently
continuing; when the file is present it restores the stored model state. -/
theorem C9_final_reload_fails_loudly (fs : FileSystem) (path : String)
    (student : Model) :
    main_post_distill false fs path student
        = some (final_student_reload fs path student)
    ∧ (fs path = none →
        final_student_reload fs path student = Except.error "NotFoundError")
    ∧ (∀ c : Checkpoint, fs path = some c →
        final_student_reload fs path student = Except.ok c.model_state) := by
  refine ⟨rfl, ?_, ?_⟩
  · intro h
    simp [final_student_reload, load_ckpt_model, h]
  · intro c h
    simp [final_student_reload, load_ckpt_model, h]

/-- Witness for C9: on the empty file system the final reload errors. -/
theorem C9_witness :
    final_student_reload emptyFS "ckpt.pt" (Model.plain ⟨"student"⟩)
      = Except.error "NotFoundError" :=
  (C9_final_reload_fails_loudly emptyFS "ckpt.pt"
    (Model.plain ⟨"student"⟩)).2.1 rfl

/-- C10: `evaluate` saves the global torch thread count on entry, runs the
evaluation loop with the count set to 1, and restores the saved value before
returning, so the caller-observed thread count is unchanged. -/
theorem C10_thread_count_restored (s : EvalState) :
    (evaluate_loop_state s).num_threads = 1
    ∧ (evaluate_final_state s).num_threads = s.num_threads :=
  ⟨rfl, rfl⟩

end TorchDistill
